import Mathlib

/-!
Verification of the two utilities in this repository against their
natural-language specification:

* `hooks/csharpier-format.py` — a PostToolUse hook that formats `.cs`
  files with CSharpier (modelled in namespace `CsharpierFormat`);
* `tools/create_plugin.py` — an interactive plugin scaffolder
  (modelled in namespace `CreatePlugin`).

Python strings are modelled as Lean `String`s, with `str.strip`,
`str.lower`, `in` (substring) and `str.endswith` given explicit
executable models below.  JSON documents (the hook's stdin event, the
plugin manifest and the marketplace registry) are modelled by the
inductive type `Json`; a JSON object is the parsed Python dict, so its
key list is duplicate-free and lookup order is irrelevant.
-/

namespace ClaudePlugins

/-! ### String helpers (models of Python `str` methods, ASCII range) -/

/-- `isPrefixList n h` decides whether the char list `n` is a prefix of `h`. -/
def isPrefixList : List Char → List Char → Bool
  | [], _ => true
  | _ :: _, [] => false
  | a :: as, b :: bs => a == b && isPrefixList as bs

/-- `isSubstrList n h` decides whether `n` occurs contiguously inside `h`
(Python's `n in h` for strings). -/
def isSubstrList (needle : List Char) : List Char → Bool
  | [] => needle.isEmpty
  | c :: t => isPrefixList needle (c :: t) || isSubstrList needle t

/-- Remove leading and trailing whitespace from a char list
(Python `str.strip`). -/
def stripChars (l : List Char) : List Char :=
  ((l.dropWhile Char.isWhitespace).reverse.dropWhile Char.isWhitespace).reverse

/-- Python `s.strip()`. -/
def pyStrip (s : String) : String := ⟨stripChars s.data⟩

/-- Python `s.lower()` (ASCII letters, which is all the code compares). -/
def pyLower (s : String) : String := ⟨s.data.map Char.toLower⟩

/-- Python `needle in hay` for strings. -/
def strContains (hay needle : String) : Bool := isSubstrList needle.data hay.data

/-- Python `s.endswith(suf)`. -/
def strEndsWith (s suf : String) : Bool := isPrefixList suf.data.reverse s.data.reverse

/-- Python `c in s` for a single character `c`. -/
def containsChar (s : String) (c : Char) : Bool := s.data.any (fun a => a == c)

/-! ### JSON values -/

/-- A parsed JSON document (the result of Python's `json.load`).
`obj` is a parsed dict: its key list is duplicate-free. -/
inductive Json where
  | null
  | bool (b : Bool)
  | num (n : Int)
  | str (s : String)
  | arr (elems : List Json)
  | obj (fields : List (String × Json))

/-- Dict lookup: `d.get(k)` / `d[k]` on a parsed JSON object. -/
def lookupJson (k : String) : List (String × Json) → Option Json
  | [] => none
  | (k', v) :: rest => if k = k' then some v else lookupJson k rest

/-- Outcome of a dynamically-typed Python expression: a value, or a raised
exception (carrying the message `str(e)`). -/
inductive PyResult (α : Type) where
  | ok (a : α)
  | exn (msg : String)
deriving DecidableEq

namespace CsharpierFormat

/-! ### Model of `hooks/csharpier-format.py` -/

/-- Outcome of the `subprocess.run(["dotnet", "csharpier", file_path], ...)`
call: normal completion with exit code and captured streams, a
`TimeoutExpired`, a `FileNotFoundError` at launch, or any other exception. -/
inductive RunOutcome where
  | completed (returncode : Int) (stdoutText stderrText : String)
  | timedOut
  | launchFailed
  | otherExn (msg : String)

/-- The hook's execution environment: the result of `shutil.which("dotnet")`,
the filesystem's answer to `Path(p).exists()`, and the behaviour of the
formatter subprocess on each path. -/
structure HookEnv where
  dotnetPath : Option String
  fileExists : String → Bool
  outcome : String → RunOutcome

/-- `check_csharpier_installed`: `shutil.which("dotnet") is not None`. -/
def check_csharpier_installed (env : HookEnv) : Bool := env.dotnetPath.isSome

/-- `run_csharpier(file_path)`: classify the subprocess outcome into a
`(success, message)` pair, exactly as the Python function does. -/
def run_csharpier (env : HookEnv) (file_path : String) : Bool × String :=
  match env.outcome file_path with
  | .completed rc out err =>
    if rc = 0 then
      (true, "Formatted: " ++ file_path)
    else if strContains (pyLower (pyStrip err)) "csharpier"
        && strContains (pyLower (pyStrip err)) "not found" then
      (false, "CSharpier not installed")
    else
      (false, "Format failed: " ++ (if pyStrip err = "" then out else pyStrip err))
  | .timedOut => (false, "Timeout formatting: " ++ file_path)
  | .launchFailed => (false, "dotnet CLI not found")
  | .otherExn e => (false, "Error: " ++ e)

/-- `data.get("tool_input", {}).get("file_path", "")` followed by the use of
the result as a string: yields the path string, defaults to `""` when either
key is absent, and raises (`AttributeError`/`TypeError`, caught by `main`'s
generic handler) when `data` or `tool_input` is not a dict or `file_path` is
present but not a string. -/
def extractFilePath : Json → PyResult String
  | .obj fields =>
    match lookupJson "tool_input" fields with
    | none => .ok ""
    | some (.obj inner) =>
      match lookupJson "file_path" inner with
      | none => .ok ""
      | some (.str s) => .ok s
      | some _ => .exn "file_path value is not a string"
    | some _ => .exn "tool_input value has no attribute get"
  | _ => .exn "stdin value has no attribute get"

/-- What `json.load(sys.stdin)` produced: a `JSONDecodeError`, or a value. -/
inductive StdinData where
  | malformed
  | parsed (v : Json)

/-- Observable result of one run of the hook's `main`: the `sys.exit` code,
the lines printed to stdout and stderr, and whether the formatter
subprocess was invoked (`run_csharpier` reached). -/
structure HookResult where
  exitCode : Nat
  stdoutLines : List String
  stderrLines : List String
  ranFormatter : Bool
deriving DecidableEq

/-- The body of the hook's `main()` from the `.cs`-extension check on, once
a file path string has been successfully extracted from the input. -/
def processPath (env : HookEnv) (file_path : String) : HookResult :=
  if strEndsWith file_path ".cs" = false then
        { exitCode := 0, stdoutLines := [], stderrLines := [], ranFormatter := false }
      else if env.fileExists file_path = false then
        { exitCode := 0, stdoutLines := [], stderrLines := [], ranFormatter := false }
      else if check_csharpier_installed env = false then
        { exitCode := 0, stdoutLines := [],
          stderrLines := ["[CSharpier] Warning: dotnet CLI not found. Skipping format."],
          ranFormatter := false }
      else
        let res := run_csharpier env file_path
        if res.1 then
          { exitCode := 0, stdoutLines := ["[CSharpier] " ++ res.2],
            stderrLines := [], ranFormatter := true }
        else if strContains (pyLower res.2) "not installed" then
          { exitCode := 0, stdoutLines := [],
            stderrLines := ["[CSharpier] Warning: CSharpier not installed. Install with: dotnet tool install -g csharpier"],
            ranFormatter := true }
        else
          { exitCode := 0, stdoutLines := [],
            stderrLines := ["[CSharpier] Warning: " ++ res.2], ranFormatter := true }

/-- The hook's `main()`: parse stdin, extract the file path (degrading any
raised exception to a warning), then process the path. -/
def main (env : HookEnv) (stdin : StdinData) : HookResult :=
  match stdin with
  | .malformed =>
    { exitCode := 0, stdoutLines := [],
      stderrLines := ["[CSharpier] Warning: Invalid JSON input"], ranFormatter := false }
  | .parsed v =>
    match extractFilePath v with
    | .exn e =>
      { exitCode := 0, stdoutLines := [],
        stderrLines := ["[CSharpier] Warning: " ++ e], ranFormatter := false }
    | .ok file_path => processPath env file_path

/-- A fully healthy hook environment, used to instantiate hypotheses of the
claim theorems at concrete inputs. -/
def sampleEnv : HookEnv :=
  { dotnetPath := some "/usr/bin/dotnet"
    fileExists := fun _ => true
    outcome := fun _ => .completed 0 "" "" }

/-- A hook environment in which `shutil.which("dotnet")` returns nothing. -/
def envNoDotnet : HookEnv :=
  { dotnetPath := none
    fileExists := fun _ => true
    outcome := fun _ => .completed 0 "" "" }

/-- A hook environment in which the formatter subprocess fails because the
`csharpier` subcommand is missing. -/
def envNotInstalled : HookEnv :=
  { dotnetPath := some "/usr/bin/dotnet"
    fileExists := fun _ => true
    outcome := fun _ => .completed 1 "" "dotnet csharpier not found" }

/-- A well-formed JSON input in which `tool_input` is present but is not a
mapping: `{"tool_input": 5}`. -/
def badToolInput : Json := .obj [("tool_input", .num 5)]

end CsharpierFormat

namespace CreatePlugin

/-! ### Model of `tools/create_plugin.py`

Interactive input is a list of answers consumed in order; a function
returns `none` when the list runs out mid-prompt (in Python, an uncaught
`EOFError`), so a `some` result corresponds to a completed run.  The
filesystem state visible to the scaffolder is the set of entries at the
project root, the manifests it has written, and the registry content. -/

/-- The four pieces of metadata collected by `get_user_input`. -/
structure PluginInfo where
  name : String
  description : String
  author : String
  version : String
deriving DecidableEq

/-- `d[k] = v` on a parsed JSON object: replace the binding in place, or
add it at the end (Python dict assignment). -/
def setKey (k : String) (v : Json) : List (String × Json) → List (String × Json)
  | [] => [(k, v)]
  | (k', v') :: rest => if k = k' then (k, v) :: rest else (k', v') :: setKey k v rest

/-- `d[k]` on a JSON value that should be an object. -/
def getField (data : Json) (k : String) : Option Json :=
  match data with
  | .obj fields => lookupJson k fields
  | _ => none

/-- The name prompt loop: strip the answer, re-prompt while it is empty,
contains a space character, or names an existing entry at the project root
(`(self.project_root / name).exists()`). -/
def askName (rootEntries : List String) : List String → Option (String × List String)
  | [] => none
  | i :: rest =>
    if pyStrip i = "" then askName rootEntries rest
    else if containsChar (pyStrip i) ' ' then askName rootEntries rest
    else if rootEntries.contains (pyStrip i) then askName rootEntries rest
    else some (pyStrip i, rest)

/-- The description/author prompt loops: strip, re-prompt while empty. -/
def askNonempty : List String → Option (String × List String)
  | [] => none
  | i :: rest => if pyStrip i = "" then askNonempty rest else some (pyStrip i, rest)

/-- The version prompt: strip, defaulting an empty answer to `"1.0.0"`. -/
def askVersion : List String → Option (String × List String)
  | [] => none
  | i :: rest => some (if pyStrip i = "" then "1.0.0" else pyStrip i, rest)

/-- `get_user_input`: gather name, description, author and version. -/
def get_user_input (rootEntries : List String) (inputs : List String) :
    Option (PluginInfo × List String) :=
  match askName rootEntries inputs with
  | none => none
  | some (name, r1) =>
    match askNonempty r1 with
    | none => none
    | some (description, r2) =>
      match askNonempty r2 with
      | none => none
      | some (author, r3) =>
        match askVersion r3 with
        | none => none
        | some (version, r4) =>
          some ({ name := name, description := description,
                  author := author, version := version }, r4)

/-- The `(y/n)` prompt loops (confirmation and marketplace registration):
strip and lowercase the answer, re-prompting until it is `y` or `n`. -/
def askYN : List String → Option (Bool × List String)
  | [] => none
  | i :: rest =>
    if pyLower (pyStrip i) = "y" then some (true, rest)
    else if pyLower (pyStrip i) = "n" then some (false, rest)
    else askYN rest

/-- The field updates of `update_plugin_json`: set `name`, `description`
and `version` on the manifest and `name` on its `author` sub-object.
Returns `none` when the manifest is not an object or `author` is absent or
not an object (`TypeError`/`KeyError`, caught and reported as failure). -/
def update_fields (data : Json) (info : PluginInfo) : Option Json :=
  match data with
  | .obj fields =>
    match lookupJson "author" fields with
    | some (.obj afields) =>
      some (.obj (setKey "author" (.obj (setKey "name" (.str info.author) afields))
        (setKey "version" (.str info.version)
          (setKey "description" (.str info.description)
            (setKey "name" (.str info.name) fields)))))
    | _ => none
  | _ => none

/-- Failure-injection flags and fixed file contents of one scaffolder run:
whether the template directory and registry file exist, whether the
`shutil.copytree` call succeeds, the parsed content of the copied
`plugin.json` (`none` when reading or parsing it raises), and whether the
manifest/registry reads and writes succeed. -/
structure ScaffoldEnv where
  templateExists : Bool
  marketplaceExists : Bool
  copyOk : Bool
  templateManifest : Option Json
  manifestWriteOk : Bool
  marketplaceReadOk : Bool
  marketplaceWriteOk : Bool

/-- Filesystem state visible to the scaffolder: entries at the project
root, the manifests of successfully scaffolded plugins, and the content of
`.claude-plugin/marketplace.json`. -/
structure FS where
  rootEntries : List String
  manifests : List (String × Json)
  marketplace : Json

/-- `validate_environment`: template directory first, then registry file. -/
def validate_environment (env : ScaffoldEnv) : Bool :=
  if env.templateExists = false then false
  else if env.marketplaceExists = false then false
  else true

/-- `update_plugin_json`: read the copied manifest, update the four fields,
write it back; `some` of the new content on success, `none` on any caught
exception (read, parse, field access, or write). -/
def update_plugin_json (env : ScaffoldEnv) (info : PluginInfo) : Option Json :=
  match env.templateManifest with
  | none => none
  | some data =>
    match update_fields data info with
    | none => none
    | some newData => if env.manifestWriteOk then some newData else none

/-- `marketplace_data.get("plugins", [])` followed by its use as a list:
the plugins list, `[]` when the key is absent, and `none` when the registry
is not an object or the value is not a list (every such case raises inside
the `try` and registration fails without modifying anything). -/
def getPlugins : Json → Option (List Json)
  | .obj fields =>
    match lookupJson "plugins" fields with
    | none => some []
    | some (.arr ps) => some ps
    | some _ => none
  | _ => none

/-- `[p["name"] for p in plugins]`: the list of name values, or `none` when
some record is not an object with a `name` key (a raised
`KeyError`/`TypeError`, caught: registration fails, nothing modified). -/
def pluginNames : List Json → Option (List Json)
  | [] => some []
  | .obj fields :: rest =>
    match lookupJson "name" fields with
    | some v =>
      match pluginNames rest with
      | some vs => some (v :: vs)
      | none => none
    | none => none
  | _ :: _ => none

/-- Python `plugin_info["name"] in existing_plugins`: `==` against each
name value; comparison with a non-string value is `False`. -/
def nameMatches (n : String) : Json → Bool
  | .str s => n == s
  | _ => false

/-- The record appended to the registry for a new plugin. -/
def newPluginEntry (info : PluginInfo) : Json :=
  .obj [("name", .str info.name), ("source", .str ("./" ++ info.name)),
        ("description", .str info.description)]

/-- Write the (possibly added) `plugins` key back into the registry object.
The non-object case is unreachable from `register_to_marketplace`. -/
def setPlugins (data : Json) (ps : List Json) : Json :=
  match data with
  | .obj fields => .obj (setKey "plugins" (.arr ps) fields)
  | other => other

/-- The distinguishable status lines `register_to_marketplace` prints. -/
inductive RegMsg where
  | skipped
  | alreadyExists
  | registered
  | error
deriving DecidableEq

/-- Observable result of `register_to_marketplace`: the Python return
value, the registry content after the call, whether the registry file was
rewritten, which status was reported, and the unconsumed input. -/
structure RegResult where
  retval : Bool
  marketplace : Json
  wroteFile : Bool
  msg : RegMsg
  rest : List String

/-- `register_to_marketplace`: ask y/n; on `n` skip; on `y` load the
registry, warn and stop if the plugin name is already present, otherwise
append the new record and rewrite the file.  Any caught exception reports
an error and leaves the registry unchanged. -/
def register_to_marketplace (env : ScaffoldEnv) (marketplace : Json)
    (info : PluginInfo) (inputs : List String) : Option RegResult :=
  match askYN inputs with
  | none => none
  | some (false, rest) =>
    some { retval := true, marketplace := marketplace, wroteFile := false,
           msg := .skipped, rest := rest }
  | some (true, rest) =>
    if env.marketplaceReadOk = false then
      some { retval := false, marketplace := marketplace, wroteFile := false,
             msg := .error, rest := rest }
    else
      match getPlugins marketplace with
      | none =>
        some { retval := false, marketplace := marketplace, wroteFile := false,
               msg := .error, rest := rest }
      | some ps =>
        match pluginNames ps with
        | none =>
          some { retval := false, marketplace := marketplace, wroteFile := false,
                 msg := .error, rest := rest }
        | some names =>
          if names.any (nameMatches info.name) then
            some { retval := true, marketplace := marketplace, wroteFile := false,
                   msg := .alreadyExists, rest := rest }
          else if env.marketplaceWriteOk then
            some { retval := true,
                   marketplace := setPlugins marketplace (ps ++ [newPluginEntry info]),
                   wroteFile := true, msg := .registered, rest := rest }
          else
            some { retval := false, marketplace := marketplace, wroteFile := false,
                   msg := .error, rest := rest }

/-- Result of one completed `run`: the returned exit code, the final
filesystem state, and the unconsumed interactive input. -/
structure RunResult where
  exitCode : Nat
  fs : FS
  rest : List String

/-- `PluginCreator.run`: validate, gather input, confirm, copy the
template, update the manifest, optionally register.  A failed copy is
modelled as leaving the state unchanged (the claims constrain only the
exit code there); a failed manifest update leaves the new directory in
place without recording a manifest, exactly as the script warns. -/
def run (env : ScaffoldEnv) (fs : FS) (inputs : List String) : Option RunResult :=
  if validate_environment env = false then
    some { exitCode := 1, fs := fs, rest := inputs }
  else
    match get_user_input fs.rootEntries inputs with
    | none => none
    | some (info, r1) =>
      match askYN r1 with
      | none => none
      | some (false, r2) => some { exitCode := 0, fs := fs, rest := r2 }
      | some (true, r2) =>
        if env.copyOk = false then
          some { exitCode := 1, fs := fs, rest := r2 }
        else
          match update_plugin_json env info with
          | none =>
            some { exitCode := 1,
                   fs := { fs with rootEntries := fs.rootEntries ++ [info.name] },
                   rest := r2 }
          | some newManifest =>
            match register_to_marketplace env fs.marketplace info r2 with
            | none => none
            | some reg =>
              some { exitCode := 0,
                     fs := { rootEntries := fs.rootEntries ++ [info.name],
                             manifests := fs.manifests ++ [(info.name, newManifest)],
                             marketplace := reg.marketplace },
                     rest := reg.rest }

/-- Modelled from the spec: the template's `.claude-plugin/plugin.json` is
part of this repository but not under `src/`.  Per the spec's data model it
is "a JSON document with at least `name`, `description`, `version`, and a
nested `author.name` field". -/
def templatePluginJson : Json :=
  .obj [("name", .str "plugin-template"),
        ("description", .str "A template for creating plugins"),
        ("version", .str "0.1.0"),
        ("author", .obj [("name", .str "Your Name")])]

/-- Modelled from the spec: a registry file content, "a JSON document with
a `plugins` list of records `{name, source, description}`". -/
def sampleMarketplace : Json :=
  .obj [("name", .str "marketplace"),
        ("plugins", .arr [.obj [("name", .str "my-plugin"),
                                ("source", .str "./my-plugin"),
                                ("description", .str "d")]])]

/-- A scaffolder environment in which every filesystem operation succeeds
and the template manifest has the spec-modelled shape. -/
def envAllGood : ScaffoldEnv :=
  { templateExists := true, marketplaceExists := true, copyOk := true,
    templateManifest := some templatePluginJson, manifestWriteOk := true,
    marketplaceReadOk := true, marketplaceWriteOk := true }

/-- An environment whose template directory is missing. -/
def envNoTemplate : ScaffoldEnv :=
  { templateExists := false, marketplaceExists := true, copyOk := true,
    templateManifest := some templatePluginJson, manifestWriteOk := true,
    marketplaceReadOk := true, marketplaceWriteOk := true }

/-- A filesystem with an empty project root and an empty registry list. -/
def fsEmpty : FS :=
  { rootEntries := [], manifests := [],
    marketplace := .obj [("plugins", .arr [])] }

/-- A filesystem whose registry already lists `my-plugin`. -/
def fsWithMyPlugin : FS :=
  { rootEntries := [], manifests := [], marketplace := sampleMarketplace }

/-- The metadata of the C6/C7 test scenario. -/
def infoMyPlugin : PluginInfo :=
  { name := "my-plugin", description := "Test plugin",
    author := "Alice", version := "1.0.0" }

end CreatePlugin

/-! ### Claim theorems for the hook -/

open CsharpierFormat

/-- C1: for every input on standard input — well-formed JSON of any shape,
malformed JSON, or any input raising an unexpected exception (modelled by
the `exn` branch of `extractFilePath`) — the hook's `main` terminates with
exit status 0, and for malformed JSON it prints a warning. -/
theorem C1_hook_always_exits_zero (env : HookEnv) (stdin : StdinData) :
    (CsharpierFormat.main env stdin).exitCode = 0 ∧
    (CsharpierFormat.main env StdinData.malformed).stderrLines =
      ["[CSharpier] Warning: Invalid JSON input"] := by
  refine ⟨?_, rfl⟩
  cases stdin with
  | malformed => rfl
  | parsed v =>
    cases hov : extractFilePath v with
    | exn e => simp [CsharpierFormat.main, hov]
    | ok fp =>
      simp only [CsharpierFormat.main, hov]
      unfold processPath
      split
      · rfl
      · split
        · rfl
        · split
          · rfl
          · dsimp only
            split
            · rfl
            · split <;> rfl

/-- C2: for every hook input whose extracted file path does not end in
`".cs"`, the hook performs no subprocess invocation (`run_csharpier` is
never reached) and exits with status 0, printing nothing. -/
theorem C2_non_cs_path_is_silent_noop (env : HookEnv) (v : Json) (fp : String)
    (hex : extractFilePath v = .ok fp) (hcs : strEndsWith fp ".cs" = false) :
    CsharpierFormat.main env (.parsed v) =
      { exitCode := 0, stdoutLines := [], stderrLines := [], ranFormatter := false } := by
  simp [CsharpierFormat.main, processPath, hex, hcs]

/-- Witness for C2 at the concrete input `{"tool_input": {"file_path": "script.py"}}`. -/
theorem C2_non_cs_path_is_silent_noop_witness :
    CsharpierFormat.main sampleEnv
        (.parsed (.obj [("tool_input", .obj [("file_path", .str "script.py")])])) =
      { exitCode := 0, stdoutLines := [], stderrLines := [], ranFormatter := false } :=
  C2_non_cs_path_is_silent_noop sampleEnv _ "script.py" (by decide) (by decide)

/-- C4: for every hook input naming an existing `.cs` file, if
`check_csharpier_installed` reports unavailable then no formatting
subprocess is launched, a warning is emitted to stderr, and the hook
exits with status 0. -/
theorem C4_probe_unavailable_warns_and_skips (env : HookEnv) (v : Json) (fp : String)
    (hex : extractFilePath v = .ok fp) (hcs : strEndsWith fp ".cs" = true)
    (hfile : env.fileExists fp = true)
    (hprobe : check_csharpier_installed env = false) :
    CsharpierFormat.main env (.parsed v) =
      { exitCode := 0, stdoutLines := [],
        stderrLines := ["[CSharpier] Warning: dotnet CLI not found. Skipping format."],
        ranFormatter := false } := by
  simp [CsharpierFormat.main, processPath, hex, hcs, hfile, hprobe]

/-- Witness for C4 at the concrete input `{"tool_input": {"file_path": "A.cs"}}`
in an environment without `dotnet` on the path. -/
theorem C4_probe_unavailable_warns_and_skips_witness :
    CsharpierFormat.main envNoDotnet
        (.parsed (.obj [("tool_input", .obj [("file_path", .str "A.cs")])])) =
      { exitCode := 0, stdoutLines := [],
        stderrLines := ["[CSharpier] Warning: dotnet CLI not found. Skipping format."],
        ranFormatter := false } :=
  C4_probe_unavailable_warns_and_skips envNoDotnet _ "A.cs"
    (by decide) (by decide) (by decide) (by decide)

/-- C10 counterexample: on `{"tool_input": 5}` the `tool_input` key is not
present as a mapping with a `file_path` key, yet the extracted file path
does not default to the empty string — the `.get` call raises, and the
hook prints a (generic exception) warning instead of exiting silently. -/
theorem C10_counterexample_tool_input_not_mapping :
    extractFilePath badToolInput = .exn "tool_input value has no attribute get" ∧
    (CsharpierFormat.main sampleEnv (.parsed badToolInput)).stderrLines ≠ [] ∧
    (CsharpierFormat.main sampleEnv (.parsed badToolInput)).exitCode = 0 := by
  refine ⟨by decide, ?_, rfl⟩
  have h : (CsharpierFormat.main sampleEnv (.parsed badToolInput)).stderrLines =
      ["[CSharpier] Warning: tool_input value has no attribute get"] := by decide
  rw [h]
  exact List.cons_ne_nil _ _

/-- C10 (amended): for every well-formed JSON hook input that is an object
in which the `tool_input` key is absent, or maps to an object in which the
`file_path` key is absent, the extracted file path defaults to the empty
string and the hook exits 0 silently — no subprocess, no output, and in
particular no malformed-input warning. -/
theorem C10_amended_missing_keys_silent_noop (env : HookEnv)
    (fields : List (String × Json))
    (h : lookupJson "tool_input" fields = none ∨
         ∃ inner, lookupJson "tool_input" fields = some (.obj inner) ∧
                  lookupJson "file_path" inner = none) :
    extractFilePath (.obj fields) = .ok "" ∧
    CsharpierFormat.main env (.parsed (.obj fields)) =
      { exitCode := 0, stdoutLines := [], stderrLines := [], ranFormatter := false } := by
  have hex : extractFilePath (.obj fields) = .ok "" := by
    rcases h with h | ⟨inner, h1, h2⟩
    · simp [extractFilePath, h]
    · simp [extractFilePath, h1, h2]
  refine ⟨hex, ?_⟩
  simp only [CsharpierFormat.main, hex]
  rfl

/-- Witness for the amended C10 at the concrete input `{}` (empty object). -/
theorem C10_amended_missing_keys_silent_noop_witness :
    extractFilePath (.obj []) = .ok "" ∧
    CsharpierFormat.main sampleEnv (.parsed (.obj [])) =
      { exitCode := 0, stdoutLines := [], stderrLines := [], ranFormatter := false } :=
  C10_amended_missing_keys_silent_noop sampleEnv [] (Or.inl rfl)

/-! ### Substring lemmas for C3

Python checks `"csharpier" in stderr.strip().lower()`; the claim speaks of
the unstripped `stderr.lower()`.  For a needle whose first and last
characters are not whitespace, stripping the haystack does not change
containment, proved below. -/

/-- `isPrefixList` decides `List.IsPrefix`. -/
theorem isPrefixList_iff (n h : List Char) : isPrefixList n h = true ↔ n <+: h := by
  induction n generalizing h with
  | nil => simp [isPrefixList]
  | cons a as ih =>
    cases h with
    | nil => simp [isPrefixList]
    | cons b bs => simp [isPrefixList, List.cons_prefix_cons, ih]

/-- `isSubstrList` decides `List.IsInfix`. -/
theorem isSubstrList_iff (n h : List Char) : isSubstrList n h = true ↔ n <:+: h := by
  induction h with
  | nil => simp [isSubstrList]
  | cons c t ih => simp [isSubstrList, isPrefixList_iff, ih, List.infix_cons_iff]

/-- Lowercasing fixes whitespace characters. -/
theorem toLower_of_isWhitespace {c : Char} (h : c.isWhitespace = true) :
    Char.toLower c = c := by
  have h4 : c = ' ' ∨ c = '\t' ∨ c = '\r' ∨ c = '\n' := by
    have h5 := h
    simp only [Char.isWhitespace, Bool.or_eq_true, decide_eq_true_eq] at h5
    tauto
  rcases h4 with h | h | h | h <;> subst h <;> decide

/-- An occurrence inside the whitespace-dropped list is an occurrence in the
original list. -/
theorem infix_map_dropWhile_mono (n l : List Char)
    (h : n <:+: (l.dropWhile Char.isWhitespace).map Char.toLower) :
    n <:+: l.map Char.toLower :=
  h.trans ((List.dropWhile_suffix Char.isWhitespace).map Char.toLower).isInfix

/-- An occurrence of a needle with a non-whitespace first character survives
dropping leading whitespace from the haystack. -/
theorem infix_map_dropWhile_of_head (n l : List Char) (hne : n ≠ [])
    (hhead : (n.headD ' ').isWhitespace = false)
    (h : n <:+: l.map Char.toLower) :
    n <:+: (l.dropWhile Char.isWhitespace).map Char.toLower := by
  induction l with
  | nil => simpa using h
  | cons c t ih =>
    rw [List.dropWhile_cons]
    by_cases hc : c.isWhitespace = true
    · rw [if_pos hc]
      apply ih
      rw [List.map_cons] at h
      rcases List.infix_cons_iff.mp h with hpre | hinf
      · exfalso
        cases n with
        | nil => exact hne rfl
        | cons n0 ns =>
          rcases List.cons_prefix_cons.mp hpre with ⟨he, _⟩
          simp only [List.headD] at hhead
          rw [he, toLower_of_isWhitespace hc, hc] at hhead
          exact absurd hhead (by decide)
      · exact hinf
    · rw [if_neg hc]
      exact h

/-- Both directions combined. -/
theorem infix_map_dropWhile_iff (n l : List Char) (hne : n ≠ [])
    (hhead : (n.headD ' ').isWhitespace = false) :
    n <:+: (l.dropWhile Char.isWhitespace).map Char.toLower ↔ n <:+: l.map Char.toLower :=
  ⟨infix_map_dropWhile_mono n l, infix_map_dropWhile_of_head n l hne hhead⟩

/-- Occurrence in a reversed haystack. -/
theorem infix_reverse_iff (a b : List Char) : a <:+: b.reverse ↔ a.reverse <:+: b := by
  rw [← List.reverse_infix, List.reverse_reverse]

/-- For a needle whose first and last characters are not whitespace,
containment in the lowercased stripped haystack coincides with containment
in the lowercased haystack. -/
theorem infix_map_strip_iff (n l : List Char) (hne : n ≠ [])
    (hhead : (n.headD ' ').isWhitespace = false)
    (hlast : (n.getLastD ' ').isWhitespace = false) :
    n <:+: (stripChars l).map Char.toLower ↔ n <:+: l.map Char.toLower := by
  have hner : n.reverse ≠ [] := by simpa using hne
  have hheadr : (n.reverse.headD ' ').isWhitespace = false := by
    rw [List.headD_eq_head?_getD, List.head?_reverse, ← List.getLastD_eq_getLast?]
    exact hlast
  calc n <:+: (stripChars l).map Char.toLower
      ↔ n.reverse <:+:
          ((l.dropWhile Char.isWhitespace).reverse.dropWhile Char.isWhitespace).map
            Char.toLower := by
        unfold stripChars
        rw [List.map_reverse]
        exact infix_reverse_iff _ _
    _ ↔ n.reverse <:+: (l.dropWhile Char.isWhitespace).reverse.map Char.toLower :=
        infix_map_dropWhile_iff _ _ hner hheadr
    _ ↔ n <:+: (l.dropWhile Char.isWhitespace).map Char.toLower := by
        rw [List.map_reverse]
        exact List.reverse_infix
    _ ↔ n <:+: l.map Char.toLower := infix_map_dropWhile_iff n l hne hhead

/-- String-level version: for a needle with non-whitespace end characters,
`needle in s.strip().lower()` agrees with `needle in s.lower()`. -/
theorem strContains_strip_lower (s needle : String) (hne : needle.data ≠ [])
    (hhead : (needle.data.headD ' ').isWhitespace = false)
    (hlast : (needle.data.getLastD ' ').isWhitespace = false) :
    strContains (pyLower (pyStrip s)) needle = strContains (pyLower s) needle := by
  rw [Bool.eq_iff_iff]
  unfold strContains pyLower pyStrip
  rw [isSubstrList_iff, isSubstrList_iff]
  exact infix_map_strip_iff needle.data s.data hne hhead hlast

/-- A generic format-failure message is never the not-installed message. -/
theorem format_failed_ne (x : String) : "Format failed: " ++ x ≠ "CSharpier not installed" := by
  intro h
  have h2 : (("Format failed: " ++ x).data).head? = ("CSharpier not installed".data).head? := by
    rw [h]
  rw [String.data_append] at h2
  have hF : (("Format failed: ".data) ++ x.data).head? = some 'F' := rfl
  have hC : ("CSharpier not installed".data).head? = some 'C' := rfl
  rw [hF, hC] at h2
  simp at h2

/-- C3: when the formatter subprocess completes with a nonzero exit code,
`run_csharpier` returns failure, its message is `"CSharpier not installed"`
exactly when the subprocess's stderr (lowercased) contains both
`"csharpier"` and `"not found"`, and in every other nonzero-exit case the
message is `"Format failed: "` followed by the captured (stripped) stderr
text, or the stdout text when that stderr text is empty. -/
theorem C3_nonzero_exit_classification (env : HookEnv) (fp outText errText : String)
    (rc : Int) (hrc : ¬ rc = 0)
    (henv : env.outcome fp = .completed rc outText errText) :
    (run_csharpier env fp).1 = false ∧
    ((run_csharpier env fp).2 = "CSharpier not installed" ↔
      strContains (pyLower errText) "csharpier" = true ∧
      strContains (pyLower errText) "not found" = true) ∧
    (¬ (strContains (pyLower errText) "csharpier" = true ∧
        strContains (pyLower errText) "not found" = true) →
      (run_csharpier env fp).2 =
        "Format failed: " ++ (if pyStrip errText = "" then outText else pyStrip errText)) := by
  have hb1 : strContains (pyLower (pyStrip errText)) "csharpier" =
      strContains (pyLower errText) "csharpier" :=
    strContains_strip_lower _ _ (by decide) (by decide) (by decide)
  have hb2 : strContains (pyLower (pyStrip errText)) "not found" =
      strContains (pyLower errText) "not found" :=
    strContains_strip_lower _ _ (by decide) (by decide) (by decide)
  simp only [run_csharpier, henv]
  rw [if_neg hrc]
  by_cases hcond : (strContains (pyLower (pyStrip errText)) "csharpier"
      && strContains (pyLower (pyStrip errText)) "not found") = true
  · rw [if_pos hcond]
    rw [Bool.and_eq_true, hb1, hb2] at hcond
    exact ⟨rfl, ⟨fun _ => hcond, fun _ => rfl⟩, fun hn => absurd hcond hn⟩
  · rw [if_neg hcond]
    have hnot : ¬ (strContains (pyLower errText) "csharpier" = true ∧
        strContains (pyLower errText) "not found" = true) := by
      intro hab
      exact hcond (by rw [Bool.and_eq_true, hb1, hb2]; exact hab)
    exact ⟨rfl, ⟨fun hmsg => absurd hmsg (format_failed_ne _), fun hab => absurd hab hnot⟩,
      fun _ => rfl⟩

/-- Witness for C3: with stderr `"dotnet csharpier not found"` and exit code
1, the returned message is exactly `"CSharpier not installed"`. -/
theorem C3_nonzero_exit_classification_witness :
    (run_csharpier envNotInstalled "A.cs").2 = "CSharpier not installed" :=
  ((C3_nonzero_exit_classification envNotInstalled "A.cs" "" "dotnet csharpier not found" 1
      (by decide) rfl).2.1).mpr ⟨by decide, by decide⟩

/-! ### Claim theorems for the scaffolder -/

open CreatePlugin

/-- Specification of the name prompt loop: an accepted name is non-empty,
contains no space character, and is not an existing entry at the root. -/
theorem askName_spec (entries inputs : List String) (name : String) (rest : List String)
    (h : askName entries inputs = some (name, rest)) :
    ¬ name = "" ∧ containsChar name ' ' = false ∧ entries.contains name = false := by
  induction inputs with
  | nil => exact absurd h (by simp [askName])
  | cons i t ih =>
    rw [askName] at h
    by_cases h1 : pyStrip i = ""
    · rw [if_pos h1] at h; exact ih h
    · rw [if_neg h1] at h
      by_cases h2 : containsChar (pyStrip i) ' ' = true
      · rw [if_pos h2] at h; exact ih h
      · rw [if_neg h2] at h
        by_cases h3 : entries.contains (pyStrip i) = true
        · rw [if_pos h3] at h; exact ih h
        · rw [if_neg h3] at h
          simp only [Option.some.injEq, Prod.mk.injEq] at h
          obtain ⟨hn, -⟩ := h
          subst hn
          exact ⟨h1, Bool.eq_false_iff.mpr h2, Bool.eq_false_iff.mpr h3⟩

/-- C5 counterexample: the code only rejects the space character, not all
whitespace, so the name `"a\tb"` — containing a tab — is accepted and
returned by `get_user_input`. -/
theorem C5_counterexample_tab_name_accepted :
    get_user_input [] ["a\tb", "desc", "auth", ""] =
      some ({ name := "a\tb", description := "desc", author := "auth",
              version := "1.0.0" }, []) ∧
    ("a\tb" : String).data.any Char.isWhitespace = true := by
  constructor
  · rfl
  · decide

/-- C5 (amended): every name returned by `get_user_input` (after stripping
surrounding whitespace) is non-empty, contains no space character, and
names no existing entry (in particular no directory) at the destination
root; on any violation the loop re-prompts instead of returning. -/
theorem C5_amended_name_validation (entries inputs : List String)
    (info : PluginInfo) (rest : List String)
    (h : get_user_input entries inputs = some (info, rest)) :
    ¬ info.name = "" ∧ containsChar info.name ' ' = false ∧
    entries.contains info.name = false := by
  unfold get_user_input at h
  cases hn : askName entries inputs with
  | none => simp [hn] at h
  | some p =>
    obtain ⟨name, r1⟩ := p
    simp only [hn] at h
    have hspec := askName_spec entries inputs name r1 hn
    cases h2 : askNonempty r1 with
    | none => simp [h2] at h
    | some q =>
      obtain ⟨d, r2⟩ := q
      simp only [h2] at h
      cases h3 : askNonempty r2 with
      | none => simp [h3] at h
      | some w =>
        obtain ⟨a, r3⟩ := w
        simp only [h3] at h
        cases h4 : askVersion r3 with
        | none => simp [h4] at h
        | some u =>
          obtain ⟨ver, r4⟩ := u
          simp only [h4, Option.some.injEq, Prod.mk.injEq] at h
          obtain ⟨hinfo, -⟩ := h
          rw [← hinfo]
          exact hspec

/-- Witness for the amended C5: with one existing entry and answers that
violate each rule once, the returned name satisfies all three conditions. -/
theorem C5_amended_name_validation_witness :
    ¬ ("good-name" : String) = "" ∧ containsChar "good-name" ' ' = false ∧
    ["existing"].contains "good-name" = false :=
  C5_amended_name_validation ["existing"]
    ["", "has space", "existing", "good-name", "d", "a", ""]
    { name := "good-name", description := "d", author := "a", version := "1.0.0" }
    [] (by decide)

/-- C6: registering a plugin whose name is already present in the registry,
with a "yes" answer, returns success, reports the already-handled case, and
leaves the registry content untouched and unwritten. -/
theorem C6_duplicate_registration_is_noop (env : ScaffoldEnv) (mkt : Json)
    (info : PluginInfo) (inputs rest : List String) (ps names : List Json)
    (hyes : askYN inputs = some (true, rest))
    (hread : env.marketplaceReadOk = true)
    (hps : getPlugins mkt = some ps)
    (hnames : pluginNames ps = some names)
    (hdup : names.any (nameMatches info.name) = true) :
    register_to_marketplace env mkt info inputs =
      some { retval := true, marketplace := mkt, wroteFile := false,
             msg := .alreadyExists, rest := rest } := by
  simp [register_to_marketplace, hyes, hread, hps, hnames, hdup]

/-- Witness for C6: registry already listing `my-plugin`. -/
theorem C6_duplicate_registration_is_noop_witness :
    register_to_marketplace envAllGood sampleMarketplace infoMyPlugin ["y"] =
      some { retval := true, marketplace := sampleMarketplace, wroteFile := false,
             msg := RegMsg.alreadyExists, rest := [] } :=
  C6_duplicate_registration_is_noop envAllGood sampleMarketplace infoMyPlugin ["y"] []
    _ _ rfl rfl rfl rfl (by decide)

/-- Bindings written by `setKey` are found by `lookupJson`. -/
theorem lookup_setKey_self (k : String) (v : Json) (l : List (String × Json)) :
    lookupJson k (setKey k v l) = some v := by
  induction l with
  | nil => simp [setKey, lookupJson]
  | cons p t ih =>
    obtain ⟨k', v'⟩ := p
    by_cases h : k = k'
    · simp [setKey, lookupJson, h]
    · simp [setKey, lookupJson, h, ih]

/-- C9: declining the confirmation prompt returns exit status 0 and leaves
the filesystem (root entries, manifests, registry) unmodified. -/
theorem C9_decline_leaves_fs_unchanged (env : ScaffoldEnv) (fs : FS)
    (inputs r1 r2 : List String) (info : PluginInfo)
    (hval : validate_environment env = true)
    (hgui : get_user_input fs.rootEntries inputs = some (info, r1))
    (hno : askYN r1 = some (false, r2)) :
    run env fs inputs = some { exitCode := 0, fs := fs, rest := r2 } := by
  simp [run, hval, hgui, hno]

/-- Witness for C9: a declined run on the empty project. -/
theorem C9_decline_leaves_fs_unchanged_witness :
    run envAllGood fsEmpty ["demo", "d", "a", "", "n"] =
      some { exitCode := 0, fs := fsEmpty, rest := [] } :=
  C9_decline_leaves_fs_unchanged envAllGood fsEmpty ["demo", "d", "a", "", "n"] ["n"] []
    { name := "demo", description := "d", author := "a", version := "1.0.0" }
    rfl rfl rfl

/-- C7: the full test vector — name `my-plugin`, description `Test plugin`,
author `Alice`, version left blank (defaulting to `1.0.0`), confirm "y",
register "y" — creates the `my-plugin` root entry from the template, writes
a manifest whose `name`/`description`/`version`/`author.name` are the four
values, and appends exactly the record
`{"name": "my-plugin", "source": "./my-plugin", "description": "Test plugin"}`
to the registry's plugins list. -/
theorem C7_scaffold_test_vector (env : ScaffoldEnv) (fs : FS) (ps names : List Json)
    (h1 : env.templateExists = true) (h2 : env.marketplaceExists = true)
    (h3 : env.copyOk = true)
    (h4 : env.templateManifest = some templatePluginJson)
    (h5 : env.manifestWriteOk = true) (h6 : env.marketplaceReadOk = true)
    (h7 : env.marketplaceWriteOk = true)
    (h8 : fs.rootEntries.contains "my-plugin" = false)
    (h9 : getPlugins fs.marketplace = some ps)
    (h10 : pluginNames ps = some names)
    (h11 : names.any (nameMatches "my-plugin") = false) :
    run env fs ["my-plugin", "Test plugin", "Alice", "", "y", "y"] =
      some { exitCode := 0,
             fs := { rootEntries := fs.rootEntries ++ ["my-plugin"],
                     manifests := fs.manifests ++
                       [("my-plugin",
                         Json.obj [("name", .str "my-plugin"),
                                   ("description", .str "Test plugin"),
                                   ("version", .str "1.0.0"),
                                   ("author", .obj [("name", .str "Alice")])])],
                     marketplace := setPlugins fs.marketplace
                       (ps ++ [Json.obj [("name", .str "my-plugin"),
                                         ("source", .str "./my-plugin"),
                                         ("description", .str "Test plugin")]]) },
             rest := [] } ∧
    getPlugins (setPlugins fs.marketplace
        (ps ++ [Json.obj [("name", .str "my-plugin"),
                          ("source", .str "./my-plugin"),
                          ("description", .str "Test plugin")]])) =
      some (ps ++ [Json.obj [("name", .str "my-plugin"),
                             ("source", .str "./my-plugin"),
                             ("description", .str "Test plugin")]]) := by
  have hval : validate_environment env = true := by
    simp [validate_environment, h1, h2]
  have h8' : fs.rootEntries.contains (pyStrip "my-plugin") = false := h8
  have hname : askName fs.rootEntries ["my-plugin", "Test plugin", "Alice", "", "y", "y"] =
      some ("my-plugin", ["Test plugin", "Alice", "", "y", "y"]) := by
    rw [askName, if_neg (by decide), if_neg (by decide), if_neg (by rw [h8']; decide)]
    rfl
  have hgui : get_user_input fs.rootEntries ["my-plugin", "Test plugin", "Alice", "", "y", "y"] =
      some (infoMyPlugin, ["y", "y"]) := by
    unfold get_user_input
    rw [hname]
    rfl
  have hupd : update_plugin_json env infoMyPlugin =
      some (Json.obj [("name", .str "my-plugin"),
                      ("description", .str "Test plugin"),
                      ("version", .str "1.0.0"),
                      ("author", .obj [("name", .str "Alice")])]) := by
    have hfields : update_fields templatePluginJson infoMyPlugin =
        some (Json.obj [("name", .str "my-plugin"),
                        ("description", .str "Test plugin"),
                        ("version", .str "1.0.0"),
                        ("author", .obj [("name", .str "Alice")])]) := rfl
    simp [update_plugin_json, h4, hfields, h5]
  have hyn1 : askYN ["y", "y"] = some (true, ["y"]) := rfl
  have hyn2 : askYN ["y"] = some (true, ([] : List String)) := rfl
  have hreg : register_to_marketplace env fs.marketplace infoMyPlugin ["y"] =
      some { retval := true,
             marketplace := setPlugins fs.marketplace
               (ps ++ [Json.obj [("name", .str "my-plugin"),
                                 ("source", .str "./my-plugin"),
                                 ("description", .str "Test plugin")]]),
             wroteFile := true, msg := .registered, rest := [] } := by
    have hentry : newPluginEntry infoMyPlugin =
        Json.obj [("name", .str "my-plugin"),
                  ("source", .str "./my-plugin"),
                  ("description", .str "Test plugin")] := rfl
    have hdup : names.any (nameMatches infoMyPlugin.name) = false := h11
    simp [register_to_marketplace, hyn2, h6, h9, h10, hdup, h7, hentry]
  constructor
  · simp [run, hval, hgui, hyn1, h3, hupd, hreg]
    rfl
  · have hobj : ∃ fields, fs.marketplace = Json.obj fields := by
      cases hm : fs.marketplace with
      | obj fields => exact ⟨fields, rfl⟩
      | null => rw [hm] at h9; simp [getPlugins] at h9
      | bool b => rw [hm] at h9; simp [getPlugins] at h9
      | num n => rw [hm] at h9; simp [getPlugins] at h9
      | str s => rw [hm] at h9; simp [getPlugins] at h9
      | arr es => rw [hm] at h9; simp [getPlugins] at h9
    obtain ⟨fields, hf⟩ := hobj
    rw [hf]
    simp [setPlugins, getPlugins, lookup_setKey_self]

/-- Witness for C7: the test vector on the empty project with the
spec-modelled template manifest and an empty registry list. -/
theorem C7_scaffold_test_vector_witness :
    run envAllGood fsEmpty ["my-plugin", "Test plugin", "Alice", "", "y", "y"] =
      some { exitCode := 0,
             fs := { rootEntries := ["my-plugin"],
                     manifests :=
                       [("my-plugin",
                         Json.obj [("name", .str "my-plugin"),
                                   ("description", .str "Test plugin"),
                                   ("version", .str "1.0.0"),
                                   ("author", .obj [("name", .str "Alice")])])],
                     marketplace := setPlugins fsEmpty.marketplace
                       [Json.obj [("name", .str "my-plugin"),
                                  ("source", .str "./my-plugin"),
                                  ("description", .str "Test plugin")]] },
             rest := [] } ∧
    getPlugins (setPlugins fsEmpty.marketplace
        [Json.obj [("name", .str "my-plugin"),
                   ("source", .str "./my-plugin"),
                   ("description", .str "Test plugin")]]) =
      some [Json.obj [("name", .str "my-plugin"),
                      ("source", .str "./my-plugin"),
                      ("description", .str "Test plugin")]] :=
  C7_scaffold_test_vector envAllGood fsEmpty [] []
    rfl rfl rfl rfl rfl rfl rfl (by decide) rfl rfl (by decide)

/-- C8: a completed `run` returns exit status 1 exactly when environment
validation fails, or the run was confirmed and the template copy or the
manifest update failed; it returns 0 otherwise (full success or user
cancellation), and the registry-registration outcome never affects it. -/
theorem C8_exit_code_iff (env : ScaffoldEnv) (fs : FS) (inputs : List String)
    (res : RunResult) (h : run env fs inputs = some res) :
    (res.exitCode = 0 ∨ res.exitCode = 1) ∧
    (res.exitCode = 1 ↔
      validate_environment env = false ∨
      ∃ info r1 r2, get_user_input fs.rootEntries inputs = some (info, r1) ∧
        askYN r1 = some (true, r2) ∧
        (env.copyOk = false ∨ update_plugin_json env info = none)) := by
  unfold run at h
  split at h
  next hv =>
    obtain rfl : res = { exitCode := 1, fs := fs, rest := inputs } := (Option.some.inj h).symm
    exact ⟨Or.inr rfl, ⟨fun _ => Or.inl hv, fun _ => rfl⟩⟩
  next hv =>
    split at h
    next hgui => exact Option.noConfusion h
    next info r1 hgui =>
      split at h
      next hyn => exact Option.noConfusion h
      next r2 hyn =>
        obtain rfl : res = { exitCode := 0, fs := fs, rest := r2 } := (Option.some.inj h).symm
        refine ⟨Or.inl rfl, ⟨fun h01 => absurd h01 (by simp), fun hr => ?_⟩⟩
        rcases hr with hv' | ⟨info', r1', r2', hg', hy', -⟩
        · exact absurd hv' hv
        · rw [hgui] at hg'
          simp only [Option.some.injEq, Prod.mk.injEq] at hg'
          obtain ⟨-, hr1⟩ := hg'
          rw [← hr1, hyn] at hy'
          simp at hy'
      next r2 hyn =>
        split at h
        next hc =>
          obtain rfl : res = { exitCode := 1, fs := fs, rest := r2 } :=
            (Option.some.inj h).symm
          exact ⟨Or.inr rfl,
            ⟨fun _ => Or.inr ⟨info, r1, r2, hgui, hyn, Or.inl hc⟩, fun _ => rfl⟩⟩
        next hc =>
          split at h
          next hup =>
            obtain rfl : res =
                { exitCode := 1,
                  fs := { rootEntries := fs.rootEntries ++ [info.name],
                          manifests := fs.manifests, marketplace := fs.marketplace },
                  rest := r2 } := (Option.some.inj h).symm
            exact ⟨Or.inr rfl,
              ⟨fun _ => Or.inr ⟨info, r1, r2, hgui, hyn, Or.inr hup⟩, fun _ => rfl⟩⟩
          next m hup =>
            split at h
            next hreg => exact Option.noConfusion h
            next reg hreg =>
              obtain rfl : res =
                  { exitCode := 0,
                    fs := { rootEntries := fs.rootEntries ++ [info.name],
                            manifests := fs.manifests ++ [(info.name, m)],
                            marketplace := reg.marketplace },
                    rest := reg.rest } := (Option.some.inj h).symm
              refine ⟨Or.inl rfl, ⟨fun h01 => absurd h01 (by simp), fun hr => ?_⟩⟩
              rcases hr with hv' | ⟨info', r1', r2', hg', hy', hbad⟩
              · exact absurd hv' hv
              · rw [hgui] at hg'
                simp only [Option.some.injEq, Prod.mk.injEq] at hg'
                obtain ⟨hi, -⟩ := hg'
                rw [← hi] at hbad
                rcases hbad with hbad | hbad
                · exact absurd hbad hc
                · rw [hup] at hbad
                  exact Option.noConfusion hbad

/-- Witness for C8: a run aborted by environment validation exits 1, and
the classification confirms validation failure as the cause. -/
theorem C8_exit_code_iff_witness :
    ((1 : Nat) = 0 ∨ (1 : Nat) = 1) ∧
    ((1 : Nat) = 1 ↔
      validate_environment envNoTemplate = false ∨
      ∃ info r1 r2, get_user_input fsEmpty.rootEntries [] = some (info, r1) ∧
        askYN r1 = some (true, r2) ∧
        (envNoTemplate.copyOk = false ∨ update_plugin_json envNoTemplate info = none)) :=
  C8_exit_code_iff envNoTemplate fsEmpty []
    { exitCode := 1, fs := fsEmpty, rest := [] } rfl

end ClaudePlugins
